import Mathlib

/-!
Shallow embedding of the order-book depth core of
`src/altcoin_visualizer.py` (class AltcoinRatioVisualizer), together with
proofs about its depth-curve and statistics computations and the guard
behaviour of the chart-decoration helpers.

Prices, quantities and chart coordinates are Python floats in the source;
they are modelled here as exact rationals (`Rat`), which is faithful to the
arithmetic structure (sums, differences, guarded divisions, comparisons)
the specification talks about.
-/

namespace AltcoinVisualizer

/-- A book level `[price, qty]` as stored in the `bids` / `asks` lists. -/
abbrev Level := Rat × Rat

/-- The order-book snapshot `{symbol, bids, asks}` consumed by
`create_orderbook_depth_chart` and `create_combined_chart`. -/
structure OrderBookSnapshot where
  symbol : String
  bids : List Level
  asks : List Level

/-- The running-sum loop of lines 355-359 / 363-367 (and 736-748):
`cumsum = c; for vol in vs: cumsum += vol; out.append(cumsum)`. -/
def cumSums : List Rat → Rat → List Rat
  | [], _ => []
  | v :: vs, c => (c + v) :: cumSums vs (c + v)

/-- `computeDepthCurve` of the spec: the code builds `bid_prices` (resp.
`ask_prices`) and the parallel cumulative list `bid_cumulative`
(resp. `ask_cumulative`) from a levels list; pairing them positionally
gives the depth curve `[(price, cumulative_qty), ...]`. -/
def computeDepthCurve (levels : List Level) : List Level :=
  (levels.map Prod.fst).zip (cumSums (levels.map Prod.snd) 0)

/-- The spec error kind for depth-curve validation. -/
inductive DepthError
  | invalidInput
deriving DecidableEq

/-- Follows the words of the spec, for comparison with the code:
"Fails with InvalidInput when any quantity is negative", otherwise the
cumulative curve. -/
def computeDepthCurveSpec (levels : List Level) : Except DepthError (List Level) :=
  if levels.any (fun l => l.2 < 0) then Except.error DepthError.invalidInput
  else Except.ok (computeDepthCurve levels)

/-- `bid_volume = sum(qty for _, qty in bids)` (line 408 / 790). -/
def bidVolume (b : OrderBookSnapshot) : Rat :=
  (b.bids.map Prod.snd).sum

/-- `ask_volume = sum(qty for _, qty in asks)` (line 409 / 791). -/
def askVolume (b : OrderBookSnapshot) : Rat :=
  (b.asks.map Prod.snd).sum

/-- `imbalance = bid_volume / ask_volume if ask_volume > 0 else 0`
(line 410 / 792); this is the volume ratio of the spec. -/
def imbalance (b : OrderBookSnapshot) : Rat :=
  if askVolume b > 0 then bidVolume b / askVolume b else 0

/-- `spread = asks[0][0] - bids[0][0] if asks and bids else 0`
(line 411 / 793). -/
def spread (b : OrderBookSnapshot) : Rat :=
  match b.asks, b.bids with
  | a :: _, bd :: _ => a.1 - bd.1
  | _, _ => 0

/-- Modelled from the spec: the `spread_pct` field of the statistics dict
consumed by `add_orderbook_overlay` is produced outside this file; the spec
defines it as "spread percentage (spread / best_bid × 100)", reported as 0
when a side is missing, like the spread. -/
def spreadPct (b : OrderBookSnapshot) : Rat :=
  match b.asks, b.bids with
  | _ :: _, bd :: _ => spread b / bd.1 * 100
  | _, _ => 0

/-- `BookStatistics` of the spec. The volume ratio carries the code's
variable name `imbalance`. -/
structure BookStatistics where
  bidVolume : Rat
  askVolume : Rat
  spread : Rat
  spreadPct : Rat
  imbalance : Rat
deriving DecidableEq

/-- `computeStatistics` of the spec: the aggregate of lines 408-411 plus the
spec-modelled spread percentage. -/
def computeStatistics (b : OrderBookSnapshot) : BookStatistics :=
  { bidVolume := bidVolume b
    askVolume := askVolume b
    spread := spread b
    spreadPct := spreadPct b
    imbalance := imbalance b }

/-- Instrumented running-sum loop: same result as `cumSums`, plus a count of
the accumulation steps (`cumsum += vol`) performed. -/
def cumSumsSteps : List Rat → Rat → List Rat × Nat
  | [], _ => ([], 0)
  | v :: vs, c =>
    let r := cumSumsSteps vs (c + v)
    ((c + v) :: r.1, r.2 + 1)

/-- The pure data computed by one invocation of the depth-chart body
(lines 352-411), together with the snapshot it was handed: the code only
reads `bids` / `asks` into fresh lists, so the snapshot component is
returned as received. -/
def renderDepthData (book : OrderBookSnapshot) :
    OrderBookSnapshot × (List Level × List Level × BookStatistics) :=
  (book, (computeDepthCurve book.bids, computeDepthCurve book.asks,
    computeStatistics book))

/-! Figure model for the decoration helpers: a plotly figure is, for the
operations this file performs on it, a bag of traces, shapes, vertical
lines and text labels. -/

/-- A scatter trace (`fig.add_trace(go.Scatter(x=..., y=..., name=...))`). -/
structure Trace where
  name : String
  xs : List Rat
  ys : List Rat
deriving DecidableEq

/-- A rectangle shape (`fig.add_shape(type="rect", x0=..., x1=..., y0=...,
y1=...)`); chart time coordinates are modelled as rationals (minutes). -/
structure Shape where
  x0 : Rat
  x1 : Rat
  y0 : Rat
  y1 : Rat
deriving DecidableEq

/-- A text label placed on the figure (`fig.add_annotation(x=..., y=...,
text=...)`). -/
structure ChartLabel where
  x : Rat
  y : Rat
  text : String
deriving DecidableEq

/-- The figure state the helpers mutate. -/
structure Figure where
  traces : List Trace
  shapes : List Shape
  vlines : List Rat
  labels : List ChartLabel
deriving DecidableEq

/-- A row of `footprint_df` (columns read at lines 225-283). -/
structure FootprintRow where
  datetime : Rat
  low : Rat
  high : Rat
  is_aggressive_buy : Bool
  is_aggressive_sell : Bool
  is_trap : Bool
deriving DecidableEq

/-- `add_footprint_markers` (lines 219-285): `None` or empty frame returns
the figure unchanged; otherwise one trace per non-empty aggressive-buy /
aggressive-sell selection, and a rectangle (±7.5 minutes) plus a warning
label per trap row. -/
def add_footprint_markers (fig : Figure) (footprint_df : Option (List FootprintRow)) :
    Figure :=
  match footprint_df with
  | none => fig
  | some rows =>
    if rows.length = 0 then fig
    else
      let aggressive_buys := rows.filter (fun r => r.is_aggressive_buy)
      let fig1 :=
        if aggressive_buys.length > 0 then
          { fig with traces := fig.traces ++
              [{ name := "Aggressive Buy"
                 xs := aggressive_buys.map (fun r => r.datetime)
                 ys := aggressive_buys.map (fun r => r.low) }] }
        else fig
      let aggressive_sells := rows.filter (fun r => r.is_aggressive_sell)
      let fig2 :=
        if aggressive_sells.length > 0 then
          { fig1 with traces := fig1.traces ++
              [{ name := "Aggressive Sell"
                 xs := aggressive_sells.map (fun r => r.datetime)
                 ys := aggressive_sells.map (fun r => r.high) }] }
        else fig1
      let traps := rows.filter (fun r => r.is_trap)
      { fig2 with
          shapes := fig2.shapes ++ traps.map (fun t =>
            { x0 := t.datetime - 15 / 2
              x1 := t.datetime + 15 / 2
              y0 := t.low
              y1 := t.high })
          labels := fig2.labels ++ traps.map (fun t =>
            { x := t.datetime, y := t.high, text := "⚠" }) }

/-- A row of `profile_df` (columns read at lines 292-330). -/
structure ProfileRow where
  buy_volume : Rat
  sell_volume : Rat
  price_bottom : Rat
  price_top : Rat
deriving DecidableEq

/-- Maximum of a non-empty column, as `pandas.Series.max`; the `[]` case is
unreachable behind the emptiness guard. -/
def listMax : List Rat → Rat
  | [] => 0
  | [v] => v
  | v :: w :: vs => max v (listMax (w :: vs))

/-- `max_vol = max(profile_df['buy_volume'].max(), profile_df['sell_volume'].max())`
(line 292). -/
def flowMaxVol (rows : List ProfileRow) : Rat :=
  max (listMax (rows.map (fun r => r.buy_volume)))
    (listMax (rows.map (fun r => r.sell_volume)))

/-- `add_order_flow_profile` (lines 287-335). Besides the figure it returns
the list of divisor values used by the `/ max_vol` bar-width divisions, in
execution order, so that the division-safety claim is visible in the model.
Times are in minutes; `pd.Timedelta(minutes=m)` is the rational `m`. -/
def add_order_flow_profile (fig : Figure) (profile_df : Option (List ProfileRow))
    (current_time : Rat) (profile_scale : Rat) (offset : Rat) :
    Figure × List Rat :=
  match profile_df with
  | none => (fig, [])
  | some rows =>
    if rows.length = 0 then (fig, [])
    else
      let max_vol := flowMaxVol rows
      if max_vol = 0 then (fig, [])
      else
        let time_offset := offset * 15
        let buyRows := rows.filter (fun r => r.buy_volume > 0)
        let buyShapes := buyRows.map (fun r =>
          let width := r.buy_volume / max_vol * profile_scale
          let bar_start := current_time + time_offset
          ({ x0 := bar_start, x1 := bar_start + width * 15
             y0 := r.price_bottom, y1 := r.price_top } : Shape))
        let sell_offset := time_offset + (profile_scale + 2) * 15
        let sellRows := rows.filter (fun r => r.sell_volume > 0)
        let sellShapes := sellRows.map (fun r =>
          let width := r.sell_volume / max_vol * profile_scale
          let bar_start := current_time + sell_offset
          ({ x0 := bar_start, x1 := bar_start + width * 15
             y0 := r.price_bottom, y1 := r.price_top } : Shape))
        ({ fig with shapes := fig.shapes ++ buyShapes ++ sellShapes },
         buyRows.map (fun _ => max_vol) ++ sellRows.map (fun _ => max_vol))

/-- The `orderbook_data` argument as Python sees it: `None` and the empty
dict are falsy; a populated snapshot dict is truthy. -/
inductive OrderbookArg
  | noneArg
  | emptyDict
  | snap (book : OrderBookSnapshot)

/-- Python truthiness of the `orderbook_data` argument. -/
def OrderbookArg.falsy : OrderbookArg → Bool
  | .noneArg => true
  | .emptyDict => true
  | .snap _ => false

/-- Observable outcome of `create_orderbook_depth_chart`: the returned
value, whether `fig.write_html` ran, and the figure that was built. -/
structure DepthChartOutcome where
  result : Option String
  wroteFile : Bool
  figure : Option Figure
deriving DecidableEq

/-- `create_orderbook_depth_chart` (lines 337-443): falsy input returns
`None` before any chart construction; otherwise the figure holds the two
depth traces, the best-bid/best-ask vertical lines when the sides are
non-empty, and the HTML file is written. -/
def create_orderbook_depth_chart (orderbook_data : OrderbookArg)
    (output_file : String) : DepthChartOutcome :=
  match orderbook_data with
  | .noneArg => { result := none, wroteFile := false, figure := none }
  | .emptyDict => { result := none, wroteFile := false, figure := none }
  | .snap book =>
    let bidCurve := computeDepthCurve book.bids
    let askCurve := computeDepthCurve book.asks
    let traces : List Trace :=
      [{ name := "Bid Depth", xs := bidCurve.map Prod.fst
         ys := bidCurve.map Prod.snd },
       { name := "Ask Depth", xs := askCurve.map Prod.fst
         ys := askCurve.map Prod.snd }]
    let vlines :=
      (match book.bids with | bd :: _ => [bd.1] | [] => []) ++
      (match book.asks with | a :: _ => [a.1] | [] => [])
    { result := some output_file
      wroteFile := true
      figure := some { traces := traces, shapes := [], vlines := vlines, labels := [] } }

/-! Helper lemmas about the running-sum loop. -/

theorem cumSums_length (vs : List Rat) (c : Rat) :
    (cumSums vs c).length = vs.length := by
  induction vs generalizing c with
  | nil => rfl
  | cons v vs ih => simp [cumSums, ih]

theorem cumSums_getD (vs : List Rat) (c : Rat) (i : Nat) (h : i < vs.length) :
    (cumSums vs c).getD i 0 = c + (vs.take (i + 1)).sum := by
  induction vs generalizing c i with
  | nil => simp at h
  | cons v vs ih =>
    cases i with
    | zero => simp [cumSums]
    | succ j =>
      have hj : j < vs.length := by simpa using h
      simp only [cumSums, List.getD_cons_succ, List.take_succ_cons, List.sum_cons]
      rw [ih (c + v) j hj]
      ring

theorem cumSums_getLast? (vs : List Rat) (c : Rat) (h : vs ≠ []) :
    (cumSums vs c).getLast? = some (c + vs.sum) := by
  induction vs generalizing c with
  | nil => exact absurd rfl h
  | cons v vs ih =>
    cases vs with
    | nil => simp [cumSums]
    | cons w ws =>
      have hne : w :: ws ≠ ([] : List Rat) := by simp
      calc (cumSums (v :: w :: ws) c).getLast?
          = (cumSums (w :: ws) (c + v)).getLast? := by
            simp only [cumSums]
            rw [List.getLast?_cons_cons]
        _ = some ((c + v) + (w :: ws).sum) := ih (c + v) hne
        _ = some (c + (v :: w :: ws).sum) := by simp; ring

theorem sum_take_mono (vs : List Rat) (hnn : ∀ v ∈ vs, 0 ≤ v)
    (i j : Nat) (hij : i ≤ j) : (vs.take i).sum ≤ (vs.take j).sum := by
  induction vs generalizing i j with
  | nil => simp
  | cons v vs ih =>
    cases i with
    | zero =>
      simp only [List.take_zero, List.sum_nil]
      apply List.sum_nonneg
      intro x hx
      exact hnn x (List.mem_of_mem_take hx)
    | succ i' =>
      cases j with
      | zero => omega
      | succ j' =>
        have h' : i' ≤ j' := Nat.succ_le_succ_iff.mp hij
        simp only [List.take_succ_cons, List.sum_cons]
        have := ih (fun x hx => hnn x (List.mem_cons_of_mem v hx)) i' j' h'
        linarith

theorem depthCurve_map_snd (levels : List Level) :
    (computeDepthCurve levels).map Prod.snd = cumSums (levels.map Prod.snd) 0 := by
  apply List.map_snd_zip
  simp [cumSums_length]

theorem depthCurve_map_fst (levels : List Level) :
    (computeDepthCurve levels).map Prod.fst = levels.map Prod.fst := by
  apply List.map_fst_zip
  simp [cumSums_length]

theorem depthCurve_length (levels : List Level) :
    (computeDepthCurve levels).length = levels.length := by
  have h := congrArg List.length (depthCurve_map_fst levels)
  simpa using h

theorem depthCurve_getD (levels : List Level) (i : Nat) (h : i < levels.length) :
    ((computeDepthCurve levels).map Prod.snd).getD i 0
      = ((levels.map Prod.snd).take (i + 1)).sum := by
  rw [depthCurve_map_snd]
  have := cumSums_getD (levels.map Prod.snd) 0 i (by simpa using h)
  simpa using this

theorem depthCurve_getLast? (levels : List Level) (h : levels ≠ []) :
    ((computeDepthCurve levels).map Prod.snd).getLast?
      = some ((levels.map Prod.snd).sum) := by
  rw [depthCurve_map_snd]
  have hne : levels.map Prod.snd ≠ [] := by simpa using h
  have := cumSums_getLast? (levels.map Prod.snd) 0 hne
  simpa using this

/-! Claims. -/

/-- C1: for levels with non-negative quantities, `computeDepthCurve` keeps
the length and the prices, its cumulative entry at index `i` is the sum of
the quantities at indices `0..i`, the cumulative sequence is non-decreasing,
and on non-empty input its last entry is the total of all quantities. -/
theorem depth_curve_cumulative (levels : List Level)
    (hnn : ∀ l ∈ levels, 0 ≤ l.2) :
    (computeDepthCurve levels).length = levels.length ∧
    (computeDepthCurve levels).map Prod.fst = levels.map Prod.fst ∧
    (∀ i, i < levels.length →
      ((computeDepthCurve levels).map Prod.snd).getD i 0
        = ((levels.map Prod.snd).take (i + 1)).sum) ∧
    (∀ i j, i ≤ j → j < levels.length →
      ((computeDepthCurve levels).map Prod.snd).getD i 0
        ≤ ((computeDepthCurve levels).map Prod.snd).getD j 0) ∧
    (levels ≠ [] →
      ((computeDepthCurve levels).map Prod.snd).getLast?
        = some ((levels.map Prod.snd).sum)) := by
  refine ⟨depthCurve_length levels, depthCurve_map_fst levels, ?_, ?_, ?_⟩
  · intro i hi
    exact depthCurve_getD levels i hi
  · intro i j hij hj
    have hi : i < levels.length := lt_of_le_of_lt hij hj
    rw [depthCurve_getD levels i hi, depthCurve_getD levels j hj]
    apply sum_take_mono
    · intro x hx
      rcases List.mem_map.mp hx with ⟨l, hl, rfl⟩
      exact hnn l hl
    · omega
  · intro h
    exact depthCurve_getLast? levels h

/-- Witness for C1 at bids `[[100, 2], [99, 3]]`. -/
theorem depth_curve_cumulative_witness :
    (computeDepthCurve [((100 : Rat), 2), (99, 3)]).length = 2 ∧
    ((computeDepthCurve [((100 : Rat), 2), (99, 3)]).map Prod.snd).getLast?
      = some 5 := by
  have h := depth_curve_cumulative [((100 : Rat), 2), (99, 3)]
    (by intro l hl; fin_cases hl <;> norm_num)
  refine ⟨h.1, ?_⟩
  rw [h.2.2.2.2 (by simp)]
  simp only [List.map_cons, List.map_nil, List.sum_cons, List.sum_nil]
  norm_num

/-- C2 counterexample: on the one-level input with quantity −1 the code
performs no validation and returns the cumulative curve, while the spec
demands the InvalidInput failure. -/
theorem negative_qty_no_error :
    computeDepthCurve [((1 : Rat), -1)] = [((1 : Rat), -1)] ∧
    computeDepthCurveSpec [((1 : Rat), -1)]
      = Except.error DepthError.invalidInput := by
  constructor
  · norm_num [computeDepthCurve, cumSums]
  · norm_num [computeDepthCurveSpec]

/-- C2 amended: on every input containing a negative quantity the code still
returns the usual cumulative curve (same length, prefix-sum entries); no
InvalidInput error path exists. -/
theorem negative_qty_still_curve (levels : List Level)
    (hneg : ∃ l ∈ levels, l.2 < 0) :
    (computeDepthCurve levels).length = levels.length ∧
    (∀ i, i < levels.length →
      ((computeDepthCurve levels).map Prod.snd).getD i 0
        = ((levels.map Prod.snd).take (i + 1)).sum) ∧
    computeDepthCurveSpec levels = Except.error DepthError.invalidInput := by
  refine ⟨depthCurve_length levels, ?_, ?_⟩
  · intro i hi
    exact depthCurve_getD levels i hi
  · rcases hneg with ⟨l, hl, hlt⟩
    unfold computeDepthCurveSpec
    rw [if_pos]
    exact List.any_eq_true.mpr ⟨l, hl, by simpa using hlt⟩

/-- Witness for C2's amended theorem at the input `[[1, -1]]`. -/
theorem negative_qty_still_curve_witness :
    (computeDepthCurve [((1 : Rat), -1)]).length = 1 ∧
    computeDepthCurveSpec [((1 : Rat), -1)]
      = Except.error DepthError.invalidInput := by
  have h := negative_qty_still_curve [((1 : Rat), -1)]
    ⟨((1 : Rat), -1), by simp, by norm_num⟩
  exact ⟨h.1, h.2.2⟩

theorem spread_zero_of_empty (b : OrderBookSnapshot)
    (h : b.bids = [] ∨ b.asks = []) : spread b = 0 := by
  unfold spread
  rcases hA : b.asks with _ | ⟨a, as⟩
  · cases b.bids <;> rfl
  · rcases h with h | h
    · rw [h]
    · rw [h] at hA
      simp at hA

theorem spreadPct_zero_of_empty (b : OrderBookSnapshot)
    (h : b.bids = [] ∨ b.asks = []) : spreadPct b = 0 := by
  unfold spreadPct
  rcases hA : b.asks with _ | ⟨a, as⟩
  · cases b.bids <;> rfl
  · rcases h with h | h
    · rw [h]
    · rw [h] at hA
      simp at hA

/-- C3: a zero total ask volume gives volume ratio 0 (no division is
performed, no exception); a missing bid or ask side gives spread 0 and the
ratio/spread fields of the statistics degrade to 0. -/
theorem zero_ask_degrades (b : OrderBookSnapshot) :
    (askVolume b = 0 → (computeStatistics b).imbalance = 0) ∧
    (b.bids = [] ∨ b.asks = [] →
      (computeStatistics b).spread = 0 ∧
      (computeStatistics b).spreadPct = 0 ∧
      (b.asks = [] →
        (computeStatistics b).askVolume = 0 ∧
        (computeStatistics b).imbalance = 0)) := by
  constructor
  · intro h
    simp [computeStatistics, imbalance, h]
  · intro h
    refine ⟨spread_zero_of_empty b h, spreadPct_zero_of_empty b h, ?_⟩
    intro hA
    have hav : askVolume b = 0 := by simp [askVolume, hA]
    exact ⟨hav, by simp [computeStatistics, imbalance, hav]⟩

/-- Witness for C3 at bids `[[100, 2]]`, asks `[]`. -/
theorem zero_ask_degrades_witness :
    (computeStatistics { symbol := "X", bids := [((100 : Rat), 2)], asks := [] }).imbalance = 0 ∧
    (computeStatistics { symbol := "X", bids := [((100 : Rat), 2)], asks := [] }).spread = 0 := by
  have h := zero_ask_degrades { symbol := "X", bids := [((100 : Rat), 2)], asks := [] }
  have h2 := h.2 (Or.inr rfl)
  exact ⟨h.1 (by simp [askVolume]), h2.1⟩

/-- C4: on bids `[[100, 2], [99, 3]]` and asks `[[101, 1], [102, 4]]` the
statistics are spread 1, spread percentage 1.0, bid volume 5, ask volume 5
and volume ratio 1.0. -/
theorem stats_concrete_example :
    computeStatistics
        { symbol := "X"
          bids := [((100 : Rat), 2), (99, 3)]
          asks := [((101 : Rat), 1), (102, 4)] }
      = { bidVolume := 5, askVolume := 5, spread := 1, spreadPct := 1
          imbalance := 1 } := by
  norm_num [computeStatistics, bidVolume, askVolume, spread, spreadPct,
    imbalance]

/-- C5: permuting the levels of either side changes neither total bid
volume, nor total ask volume, nor the volume ratio, nor the final
cumulative total of the depth curve; but the depth curve itself does
depend on the order of the levels. -/
theorem volume_perm_invariant (sym sym2 : String)
    (bids bids2 asks asks2 : List Level)
    (hb : List.Perm bids bids2) (ha : List.Perm asks asks2) :
    bidVolume ⟨sym, bids, asks⟩ = bidVolume ⟨sym2, bids2, asks2⟩ ∧
    askVolume ⟨sym, bids, asks⟩ = askVolume ⟨sym2, bids2, asks2⟩ ∧
    imbalance ⟨sym, bids, asks⟩ = imbalance ⟨sym2, bids2, asks2⟩ ∧
    (bids ≠ [] →
      ((computeDepthCurve bids).map Prod.snd).getLast?
        = ((computeDepthCurve bids2).map Prod.snd).getLast?) ∧
    ∃ l1 l2 : List Level,
      List.Perm l1 l2 ∧ computeDepthCurve l1 ≠ computeDepthCurve l2 := by
  have hbv : (bids.map Prod.snd).sum = (bids2.map Prod.snd).sum :=
    (hb.map Prod.snd).sum_eq
  have hav : (asks.map Prod.snd).sum = (asks2.map Prod.snd).sum :=
    (ha.map Prod.snd).sum_eq
  refine ⟨hbv, hav, ?_, ?_, ?_⟩
  · simp [imbalance, bidVolume, askVolume, hbv, hav]
  · intro h
    have h2 : bids2 ≠ [] := by
      intro he
      apply h
      have := hb.length_eq
      rw [he] at this
      exact List.length_eq_zero.mp this
    rw [depthCurve_getLast? bids h, depthCurve_getLast? bids2 h2, hbv]
  · refine ⟨[((1 : Rat), 1), (2, 2)], [((2 : Rat), 2), (1, 1)],
      List.Perm.swap _ _ _, ?_⟩
    intro h
    have := congrArg (fun l => (l.getD 0 ((0 : Rat), (0 : Rat))).1) h
    norm_num [computeDepthCurve, cumSums] at this

/-- Witness for C5: swapping the two bid levels keeps the bid volume. -/
theorem volume_perm_invariant_witness :
    bidVolume ⟨"X", [((100 : Rat), 2), (99, 3)], [((101 : Rat), 1)]⟩
      = bidVolume ⟨"X", [((99 : Rat), 3), (100, 2)], [((101 : Rat), 1)]⟩ :=
  (volume_perm_invariant "X" "X" _ _ _ _
    (List.Perm.swap ((99 : Rat), (3 : Rat)) ((100 : Rat), (2 : Rat)) [])
    (List.Perm.refl _)).1

/-- C6: the depth-curve and statistics computation is a pure function of
the snapshot: repeated runs agree, the snapshot comes back unchanged, and
rerunning on the returned snapshot reproduces the same derived data. -/
theorem render_deterministic (book : OrderBookSnapshot) :
    renderDepthData book = renderDepthData book ∧
    (renderDepthData book).1 = book ∧
    renderDepthData ((renderDepthData book).1) = renderDepthData book ∧
    (renderDepthData book).2
      = (computeDepthCurve book.bids, computeDepthCurve book.asks,
         computeStatistics book) :=
  ⟨rfl, rfl, rfl, rfl⟩

theorem cumSumsSteps_spec (vs : List Rat) (c : Rat) :
    (cumSumsSteps vs c).1 = cumSums vs c ∧ (cumSumsSteps vs c).2 = vs.length := by
  induction vs generalizing c with
  | nil => exact ⟨rfl, rfl⟩
  | cons v vs ih =>
    refine ⟨?_, ?_⟩
    · simp [cumSumsSteps, cumSums, (ih (c + v)).1]
    · simp [cumSumsSteps, (ih (c + v)).2]

/-- C7: the accumulation loop is total and the instrumented version shows
it performs exactly one accumulation step per book level, hence
`bids.length + asks.length` steps per snapshot: linear in the number of
levels. -/
theorem depth_linear_steps (book : OrderBookSnapshot) :
    (cumSumsSteps (book.bids.map Prod.snd) 0).1
      = (computeDepthCurve book.bids).map Prod.snd ∧
    (cumSumsSteps (book.asks.map Prod.snd) 0).1
      = (computeDepthCurve book.asks).map Prod.snd ∧
    (cumSumsSteps (book.bids.map Prod.snd) 0).2
        + (cumSumsSteps (book.asks.map Prod.snd) 0).2
      = book.bids.length + book.asks.length := by
  refine ⟨?_, ?_, ?_⟩
  · rw [depthCurve_map_snd]
    exact (cumSumsSteps_spec _ 0).1
  · rw [depthCurve_map_snd]
    exact (cumSumsSteps_spec _ 0).1
  · rw [(cumSumsSteps_spec _ 0).2, (cumSumsSteps_spec _ 0).2]
    simp

/-- C8: every falsy `orderbook_data` (Python `None` or an empty dict) makes
`create_orderbook_depth_chart` return `None` before any figure is built or
any file written. -/
theorem falsy_orderbook_returns_none (d : OrderbookArg) (f : String)
    (h : d.falsy = true) :
    create_orderbook_depth_chart d f
      = { result := none, wroteFile := false, figure := none } := by
  cases d with
  | noneArg => rfl
  | emptyDict => rfl
  | snap b => simp [OrderbookArg.falsy] at h

/-- Witness for C8 at the `None` argument. -/
theorem falsy_orderbook_returns_none_witness :
    create_orderbook_depth_chart OrderbookArg.noneArg "orderbook_depth.html"
      = { result := none, wroteFile := false, figure := none } :=
  falsy_orderbook_returns_none OrderbookArg.noneArg "orderbook_depth.html" rfl

theorem le_listMax (l : List Rat) (v : Rat) (hv : v ∈ l) : v ≤ listMax l := by
  induction l with
  | nil => simp at hv
  | cons x xs ih =>
    cases xs with
    | nil =>
      simp at hv
      simp [listMax, hv]
    | cons y ys =>
      rcases List.mem_cons.mp hv with h | h
      · rw [h]
        exact le_max_left _ _
      · exact le_trans (ih h) (le_max_right _ _)

/-- C9: `add_order_flow_profile` returns the figure unchanged, performing
no division, when the profile is `None`, empty, or has `max_vol = 0`; every
divisor actually used in a bar-width division is strictly positive. -/
theorem order_flow_divisions_safe (fig : Figure)
    (profile_df : Option (List ProfileRow))
    (current_time profile_scale offset : Rat) :
    ((profile_df = none ∨ profile_df = some []) →
      add_order_flow_profile fig profile_df current_time profile_scale offset
        = (fig, [])) ∧
    (∀ rows, profile_df = some rows → flowMaxVol rows = 0 →
      add_order_flow_profile fig profile_df current_time profile_scale offset
        = (fig, [])) ∧
    (∀ d ∈ (add_order_flow_profile fig profile_df current_time profile_scale
        offset).2, 0 < d) := by
  refine ⟨?_, ?_, ?_⟩
  · rintro (rfl | rfl) <;> simp [add_order_flow_profile]
  · rintro rows rfl hz
    by_cases hl : rows.length = 0
    · simp [add_order_flow_profile, hl]
    · simp [add_order_flow_profile, hl, hz]
  · intro d hd
    cases profile_df with
    | none => simp [add_order_flow_profile] at hd
    | some rows =>
      by_cases hl : rows.length = 0
      · simp [add_order_flow_profile, hl] at hd
      · by_cases hz : flowMaxVol rows = 0
        · simp [add_order_flow_profile, hl, hz] at hd
        · simp only [add_order_flow_profile, hl, hz, if_neg, if_false,
            ite_false, List.mem_append, List.mem_map, List.mem_filter] at hd
          rcases hd with ⟨r, hr, hdd⟩ | ⟨r, hr, hdd⟩
          · rw [← hdd]
            have h1 : r.buy_volume ≤ listMax (rows.map fun r => r.buy_volume) :=
              le_listMax _ _ (List.mem_map_of_mem _ hr.1)
            have h2 : listMax (rows.map fun r => r.buy_volume) ≤ flowMaxVol rows :=
              le_max_left _ _
            have hpos : 0 < r.buy_volume := by simpa using hr.2
            linarith
          · rw [← hdd]
            have h1 : r.sell_volume ≤ listMax (rows.map fun r => r.sell_volume) :=
              le_listMax _ _ (List.mem_map_of_mem _ hr.1)
            have h2 : listMax (rows.map fun r => r.sell_volume) ≤ flowMaxVol rows :=
              le_max_right _ _
            have hpos : 0 < r.sell_volume := by simpa using hr.2
            linarith

/-- Witness for C9: on a profile with one row (buy 3, sell 1) the divisor 3
is used and is positive; the `None` profile leaves the figure untouched. -/
theorem order_flow_divisions_safe_witness :
    (0 : Rat) < 3 ∧
    add_order_flow_profile { traces := [], shapes := [], vlines := [], labels := [] }
        none 0 20 5
      = ({ traces := [], shapes := [], vlines := [], labels := [] }, []) := by
  constructor
  · exact (order_flow_divisions_safe
      { traces := [], shapes := [], vlines := [], labels := [] }
      (some [{ buy_volume := 3, sell_volume := 1, price_bottom := 10
               price_top := 11 }]) 0 20 5).2.2 3
      (by norm_num [add_order_flow_profile, flowMaxVol, listMax])
  · exact (order_flow_divisions_safe
      { traces := [], shapes := [], vlines := [], labels := [] }
      none 0 20 5).1 (Or.inl rfl)

/-- C10: `add_footprint_markers` returns the figure unchanged — no trace,
shape or label added — when the footprint frame is `None` or has no rows. -/
theorem footprint_guard (fig : Figure)
    (footprint_df : Option (List FootprintRow))
    (h : footprint_df = none ∨ footprint_df = some []) :
    add_footprint_markers fig footprint_df = fig ∧
    (add_footprint_markers fig footprint_df).traces = fig.traces ∧
    (add_footprint_markers fig footprint_df).shapes = fig.shapes ∧
    (add_footprint_markers fig footprint_df).labels = fig.labels := by
  have he : add_footprint_markers fig footprint_df = fig := by
    rcases h with rfl | rfl
    · rfl
    · simp [add_footprint_markers]
  exact ⟨he, by rw [he], by rw [he], by rw [he]⟩

/-- Witness for C10 at a figure with one trace and the `None` frame. -/
theorem footprint_guard_witness :
    add_footprint_markers
        { traces := [{ name := "SMA 50", xs := [1], ys := [2] }]
          shapes := [], vlines := [], labels := [] } none
      = { traces := [{ name := "SMA 50", xs := [1], ys := [2] }]
          shapes := [], vlines := [], labels := [] } :=
  (footprint_guard _ none (Or.inl rfl)).1

end AltcoinVisualizer
